import Mathlib

/-!
Verification development for the xgrammar-rs grammar-constrained decoding core.

The development shallowly embeds two layers of the repository:

1. The grammar-matching runtime (`GrammarMatcher`, `BatchGrammarMatcher`).
   The implementation of these classes is vendored-header-only in this
   repository (`include/xgrammar/matcher.h` declares them; the defining
   translation unit is not part of the source tree), so the runtime is
   modelled from the specification's description of the non-deterministic
   pushdown automaton: a set of parallel configurations advanced
   character-by-character, a rollback history of state snapshots bounded by
   `max_rollback_tokens`, a terminated flag, and a packed per-token bitmask.

2. The C++ bridge layer (`src/cxx_utils*.hpp`), which is present in the
   source tree and is embedded directly: the error-reporting wrappers around
   construction/compilation, the serialization-error taxonomy from
   `include/xgrammar/exception.h`, and the structural-tag format tree from
   `cpp/structural_tag.h`.
-/

namespace XgModel

/-- Modelled from the spec: the part of a `CompiledGrammar` that the matcher
consumes. The defining translation unit of `CompiledGrammar` is not in the
source tree; per the spec (§2, §3) it provides the grammar automaton
(configurations advanced per character), the root-rule accept condition, the
tokenizer-derived decoded byte sequence of every vocabulary token, and the
stop-token id set. Configurations and bytes are abstracted as naturals. -/
structure CompiledGrammar where
  vocabSize : Nat
  tokenBytes : Nat → List Nat
  charStep : Nat → Nat → List Nat
  isAccepting : Nat → Bool
  initConfigs : List Nat
  stopTokens : List Nat

/-- Modelled from the spec (§3, "Matching state"): the state owned by one
`GrammarMatcher` — the configuration set, the rollback history of snapshots
(most recent first, each recording the configuration set and terminated flag
before the corresponding accepted step), and the terminated flag. -/
structure MatcherState where
  configs : List Nat
  history : List (List Nat × Bool)
  terminated : Bool
deriving DecidableEq, Repr

/-- Modelled from the spec (§4.2): advance every live configuration by one
character; a configuration survives only if the grammar lets it consume the
character (its successor set is the union of per-configuration successors). -/
def stepConfigs (g : CompiledGrammar) (cs : List Nat) (b : Nat) : List Nat :=
  (cs.map (fun c => g.charStep c b)).flatten

/-- Modelled from the spec (§4.2): consume a byte sequence one character at a
time, threading the surviving configuration set. -/
def stepString (g : CompiledGrammar) (cs : List Nat) (bs : List Nat) : List Nat :=
  bs.foldl (stepConfigs g) cs

/-- Modelled from the spec (§3, §4.2): the initial matcher state created at
construction or by `Reset()` — the grammar's initial configuration set, empty
history, not terminated. -/
def initState (g : CompiledGrammar) : MatcherState :=
  { configs := g.initConfigs, history := [], terminated := false }

/-- Modelled from the spec (§3, §4.2): push the pre-step state onto the
rollback history, keeping at most `maxRollback` snapshots; `-1` means
unlimited retention and `0` disables rollback. -/
def pushHistory (maxRollback : Int) (s : MatcherState) : List (List Nat × Bool) :=
  let h := (s.configs, s.terminated) :: s.history
  if maxRollback < 0 then h else h.take maxRollback.toNat

/-- Modelled from the spec (§4.2 `AcceptToken`): a terminated matcher accepts
nothing further; a stop token is accepted exactly when some configuration has
reached the root rule's accept condition and then terminates the matcher; any
other token is decoded to its byte sequence and advanced character by
character — if no configuration survives the call fails and the state is left
in its pre-call form, otherwise the pre-call state is pushed onto the
rollback history. -/
def acceptToken (g : CompiledGrammar) (maxRollback : Int) (s : MatcherState)
    (t : Nat) : Bool × MatcherState :=
  if s.terminated then (false, s)
  else if t ∈ g.stopTokens then
    if s.configs.any g.isAccepting then
      (true, { configs := s.configs, history := pushHistory maxRollback s,
               terminated := true })
    else (false, s)
  else
    let cs := stepString g s.configs (g.tokenBytes t)
    if cs.isEmpty then (false, s)
    else (true, { configs := cs, history := pushHistory maxRollback s,
                  terminated := false })

/-- Modelled from the spec (§4.2 `AcceptString`): the same per-character
advancement as `AcceptToken`, with the whole string recorded as a single
rollback step; fails leaving the pre-call state when no configuration
survives or the matcher is terminated. -/
def acceptString (g : CompiledGrammar) (maxRollback : Int) (s : MatcherState)
    (bs : List Nat) : Bool × MatcherState :=
  if s.terminated then (false, s)
  else
    let cs := stepString g s.configs bs
    if cs.isEmpty then (false, s)
    else (true, { configs := cs, history := pushHistory maxRollback s,
                  terminated := false })

/-- Modelled from the spec (§4.2 `FillNextTokenBitmask`): whether accepting
vocabulary token `t` in state `s` keeps at least one configuration alive —
for a stop token, whether some configuration has reached the root rule's
accept condition; a terminated matcher allows nothing. -/
def tokenAllowed (g : CompiledGrammar) (s : MatcherState) (t : Nat) : Bool :=
  if s.terminated then false
  else if t ∈ g.stopTokens then s.configs.any g.isAccepting
  else !(stepString g s.configs (g.tokenBytes t)).isEmpty

/-- Little-endian packing of a list of bits into one machine word value:
element `k` of the list becomes bit `k`. -/
def bitsToNat : List Bool → Nat
  | [] => 0
  | b :: rest => (if b then 1 else 0) + 2 * bitsToNat rest

/-- Modelled from the spec (§6 bitmask format): the packed bitmask — one bit
per vocabulary token, 32 bits per word, `ceil(vocabSize / 32)` words, bit set
iff the token is allowed in state `s`. -/
def bitmaskWords (g : CompiledGrammar) (s : MatcherState) : List Nat :=
  (List.range ((g.vocabSize + 31) / 32)).map (fun w =>
    bitsToNat ((List.range 32).map (fun j =>
      decide (32 * w + j < g.vocabSize) && tokenAllowed g s (32 * w + j))))

/-- Read bit `t` of a packed bitmask. -/
def bitmaskGetBit (words : List Nat) (t : Nat) : Bool :=
  Nat.testBit (words.getD (t / 32) 0) (t % 32)

/-- Modelled from the spec (§4.2 `FillNextTokenBitmask`): computes the packed
bitmask of allowed next tokens and returns whether it needs to be applied
(i.e. is not all-true over the vocabulary). The matcher state is only read,
never written. -/
def fillNextTokenBitmask (g : CompiledGrammar) (s : MatcherState) :
    Bool × List Nat :=
  ((List.range g.vocabSize).any (fun t => !tokenAllowed g s t),
   bitmaskWords g s)

/-- Modelled from the spec (§4.2 `Rollback`): fails — reporting an error and
leaving the state unmodified — exactly when `n` exceeds the recorded history
depth or the configured `max_rollback_tokens` bound (`-1` meaning unlimited);
otherwise restores the configuration-set and terminated-flag snapshot from
`n` steps back and drops the undone history entries. -/
def rollback (maxRollback : Int) (s : MatcherState) (n : Nat) :
    Option MatcherState :=
  if s.history.length < n ∨ (0 ≤ maxRollback ∧ maxRollback < (n : Int)) then
    none
  else if n = 0 then some s
  else
    let snap := s.history.getD (n - 1) ([], false)
    some { configs := snap.1, history := s.history.drop n,
           terminated := snap.2 }

/-- Modelled from the spec (§4.2): run `AcceptToken` over a token sequence,
requiring every call to succeed. -/
def acceptTokenRun (g : CompiledGrammar) (maxRollback : Int) :
    MatcherState → List Nat → Option MatcherState
  | s, [] => some s
  | s, t :: ts =>
    let r := acceptToken g maxRollback s t
    if r.1 then acceptTokenRun g maxRollback r.2 ts else none

end XgModel

section ConcreteGrammar

open XgModel

/-- A tiny concrete grammar used as sanity input: the literal string "ab"
over a byte alphabet where configuration `i` means "i characters of `ab`
consumed"; token `0` has bytes `[0]` (the letter a), token `1` has bytes
`[1]` (the letter b), token `2` is the stop token. -/
def gAB : CompiledGrammar where
  vocabSize := 3
  tokenBytes := fun t => [t]
  charStep := fun c b =>
    if c = 0 ∧ b = 0 then [1] else if c = 1 ∧ b = 1 then [2] else []
  isAccepting := fun c => c = 2
  initConfigs := [0]
  stopTokens := [2]

example : (acceptToken gAB (-1) (initState gAB) 0).1 = true := by decide

example : (acceptToken gAB (-1) (initState gAB) 1).1 = false := by decide

example : tokenAllowed gAB (initState gAB) 0 = true := by decide

example :
    acceptTokenRun gAB (-1) (initState gAB) [0, 1, 2] =
      some { configs := [2],
             history := [([2], false), ([1], false), ([0], false)],
             terminated := true } := by decide

example :
    rollback (-1) { configs := [2],
                    history := [([2], false), ([1], false), ([0], false)],
                    terminated := true } 3 = some (initState gAB) := by decide

end ConcreteGrammar

namespace XgModel

theorem testBit_bitsToNat (l : List Bool) (k : Nat) :
    (bitsToNat l).testBit k = l.getD k false := by
  induction l generalizing k with
  | nil => simp [bitsToNat]
  | cons b rest ih =>
    cases k with
    | zero =>
      cases b <;> simp [bitsToNat, Nat.testBit_zero, Nat.add_mul_mod_self_left]
    | succ k =>
      have hdiv : ((if b then 1 else 0) + 2 * bitsToNat rest) / 2 =
          bitsToNat rest := by
        cases b <;> simp <;> omega
      rw [bitsToNat, Nat.testBit_succ, hdiv, ih]
      rfl

theorem bitmaskGetBit_bitmaskWords (g : CompiledGrammar) (s : MatcherState)
    (t : Nat) (ht : t < g.vocabSize) :
    bitmaskGetBit (bitmaskWords g s) t = tokenAllowed g s t := by
  have hw : t / 32 < (g.vocabSize + 31) / 32 := by omega
  have hj : t % 32 < 32 := by omega
  have hget : (bitmaskWords g s).get? (t / 32) =
      some (bitsToNat ((List.range 32).map (fun j =>
        decide (32 * (t / 32) + j < g.vocabSize) &&
          tokenAllowed g s (32 * (t / 32) + j)))) := by
    rw [bitmaskWords, List.get?_map, List.get?_range hw]
    rfl
  rw [bitmaskGetBit, List.getD, hget, Option.getD_some, testBit_bitsToNat]
  have hget2 : ((List.range 32).map (fun j =>
      decide (32 * (t / 32) + j < g.vocabSize) &&
        tokenAllowed g s (32 * (t / 32) + j))).getD (t % 32) false =
      (decide (32 * (t / 32) + t % 32 < g.vocabSize) &&
        tokenAllowed g s (32 * (t / 32) + t % 32)) := by
    rw [List.getD, List.get?_map, List.get?_range hj]
    rfl
  rw [hget2]
  have ht2 : 32 * (t / 32) + t % 32 = t := by omega
  rw [ht2, decide_eq_true ht, Bool.true_and]

theorem acceptToken_fst_eq_tokenAllowed (g : CompiledGrammar) (mr : Int)
    (s : MatcherState) (t : Nat) :
    (acceptToken g mr s t).1 = tokenAllowed g s t := by
  unfold acceptToken tokenAllowed
  by_cases h1 : s.terminated
  · simp [h1]
  · simp only [h1, if_false]
    by_cases h2 : t ∈ g.stopTokens
    · simp only [h2, if_true]
      by_cases h3 : s.configs.any g.isAccepting <;> simp [h3]
    · simp only [h2, if_false]
      by_cases h4 : (stepString g s.configs (g.tokenBytes t)).isEmpty <;>
        simp [h4]

end XgModel

/-- C1: Soundness of the bitmask — for every matcher state and every
vocabulary token id `t`, if `AcceptToken t` returns true in that state then
the bitmask produced by `FillNextTokenBitmask` in the same state has the bit
for `t` set: no token is ever accepted that the mask forbade. -/
theorem c1_bitmask_soundness (g : XgModel.CompiledGrammar) (mr : Int)
    (s : XgModel.MatcherState) (t : Nat) (ht : t < g.vocabSize)
    (hacc : (XgModel.acceptToken g mr s t).1 = true) :
    XgModel.bitmaskGetBit (XgModel.fillNextTokenBitmask g s).2 t = true := by
  have h1 : (XgModel.fillNextTokenBitmask g s).2 = XgModel.bitmaskWords g s :=
    rfl
  rw [h1, XgModel.bitmaskGetBit_bitmaskWords g s t ht,
    ← XgModel.acceptToken_fst_eq_tokenAllowed g mr s t]
  exact hacc

/-- Witness for C1 at the concrete grammar `gAB`: token 0 is accepted from
the initial state, and indeed its bit is set in the freshly filled mask. -/
theorem c1_witness :
    (0 < gAB.vocabSize ∧ (XgModel.acceptToken gAB (-1) (XgModel.initState gAB) 0).1 = true) ∧
      XgModel.bitmaskGetBit
        (XgModel.fillNextTokenBitmask gAB (XgModel.initState gAB)).2 0 = true :=
  ⟨⟨by decide, by decide⟩,
    c1_bitmask_soundness gAB (-1) (XgModel.initState gAB) 0 (by decide)
      (by decide)⟩

namespace XgModel

theorem acceptToken_true_history (g : CompiledGrammar) (mr : Int)
    (s : MatcherState) (t : Nat) (h : (acceptToken g mr s t).1 = true) :
    (acceptToken g mr s t).2.history = pushHistory mr s := by
  unfold acceptToken at *
  by_cases h1 : s.terminated
  · simp [h1] at h
  · simp only [h1, if_false] at *
    by_cases h2 : t ∈ g.stopTokens
    · simp only [h2, if_true] at *
      by_cases h3 : s.configs.any g.isAccepting
      · simp [h3]
      · simp [h3] at h
    · simp only [h2, if_false] at *
      by_cases h4 : (stepString g s.configs (g.tokenBytes t)).isEmpty
      · simp [h4] at h
      · simp [h4]

theorem pushHistory_no_trunc (mr : Int) (s : MatcherState)
    (h : mr < 0 ∨ ((s.history.length : Int) + 1 ≤ mr)) :
    pushHistory mr s = (s.configs, s.terminated) :: s.history := by
  unfold pushHistory
  rcases h with h | h
  · simp [h]
  · have h0 : ¬ mr < 0 := by omega
    simp only [h0, if_false]
    apply List.take_of_length_le
    simp only [List.length_cons]
    omega

theorem getD_zero_drop {α : Type} : ∀ (l : List α) (n : Nat) (d : α),
    (l.drop n).getD 0 d = l.getD n d := by
  intro l
  induction l with
  | nil => intro n d; cases n <;> rfl
  | cons a l ih =>
    intro n d
    cases n with
    | zero => rfl
    | succ n =>
      simp only [List.drop_succ_cons, List.getD_cons_succ]
      exact ih n d

theorem acceptTokenRun_history (g : CompiledGrammar) (mr : Int)
    (ts : List Nat) :
    ∀ s s' : MatcherState,
      (mr < 0 ∨ ((s.history.length + ts.length : Int) ≤ mr)) →
      acceptTokenRun g mr s ts = some s' →
      s'.history.length = ts.length + s.history.length ∧
      (ts = [] → s' = s) ∧
      (ts ≠ [] → s'.history.drop (ts.length - 1) =
        (s.configs, s.terminated) :: s.history) := by
  induction ts with
  | nil =>
    intro s s' _ hrun
    simp only [acceptTokenRun] at hrun
    cases hrun
    simp
  | cons t ts ih =>
    intro s s' hmr hrun
    simp only [acceptTokenRun] at hrun
    by_cases hb : (acceptToken g mr s t).1
    · simp only [hb, if_true] at hrun
      have hhist : (acceptToken g mr s t).2.history =
          (s.configs, s.terminated) :: s.history := by
        rw [acceptToken_true_history g mr s t hb]
        apply pushHistory_no_trunc
        rcases hmr with hmr | hmr
        · exact Or.inl hmr
        · right
          simp only [List.length_cons] at hmr
          push_cast at hmr ⊢
          omega
      have hmr2 : mr < 0 ∨
          (((acceptToken g mr s t).2.history.length + ts.length : Int) ≤ mr) := by
        rcases hmr with hmr | hmr
        · exact Or.inl hmr
        · right
          rw [hhist]
          simp only [List.length_cons] at hmr ⊢
          push_cast at hmr ⊢
          omega
      obtain ⟨hlen, hnil, hcons⟩ := ih (acceptToken g mr s t).2 s' hmr2 hrun
      refine ⟨?_, ?_, ?_⟩
      · rw [hlen, hhist]
        simp only [List.length_cons]
        omega
      · intro hc; cases hc
      · intro _
        by_cases hts : ts = []
        · subst hts
          have hs' := hnil rfl
          subst hs'
          simpa using hhist
        · have hdrop := hcons hts
          have hlpos : 1 ≤ ts.length := by
            cases ts with
            | nil => exact absurd rfl hts
            | cons a l => simp
          have h1 : (t :: ts).length - 1 = (ts.length - 1) + 1 := by
            simp only [List.length_cons]
            omega
          rw [h1, ← List.drop_drop, hdrop]
          simpa using hhist
    · simp [hb] at hrun

end XgModel

/-- C2: Rollback exactness — for any compiled grammar and any sequence of
`k` tokens each accepted by `AcceptToken` starting from the initial state,
provided `max_rollback_tokens` is `-1` or at least `k`, `Rollback k` succeeds
and yields a matcher whose subsequent `FillNextTokenBitmask` output is
bit-for-bit identical to that of a freshly reset matcher over the same
compiled grammar. -/
theorem c2_rollback_exactness (g : XgModel.CompiledGrammar) (mr : Int)
    (ts : List Nat) (sk : XgModel.MatcherState)
    (hmr : mr = -1 ∨ ((ts.length : Int) ≤ mr))
    (hrun : XgModel.acceptTokenRun g mr (XgModel.initState g) ts = some sk) :
    ∃ s' : XgModel.MatcherState,
      XgModel.rollback mr sk ts.length = some s' ∧
        XgModel.fillNextTokenBitmask g s' =
          XgModel.fillNextTokenBitmask g (XgModel.initState g) := by
  have hmr' : mr < 0 ∨
      (((XgModel.initState g).history.length + ts.length : Int) ≤ mr) := by
    rcases hmr with h | h
    · left; omega
    · right; simpa [XgModel.initState] using h
  obtain ⟨hlen, hnil, hcons⟩ :=
    XgModel.acceptTokenRun_history g mr ts (XgModel.initState g) sk hmr' hrun
  simp only [XgModel.initState, List.length_nil] at hlen
  by_cases hts : ts = []
  · subst hts
    have hs := hnil rfl
    subst hs
    refine ⟨XgModel.initState g, ?_, rfl⟩
    simp [XgModel.rollback]
  · have hdrop := hcons hts
    simp only [XgModel.initState] at hdrop
    have hlpos : 1 ≤ ts.length := by
      cases ts with
      | nil => exact absurd rfl hts
      | cons a l => simp
    refine ⟨XgModel.initState g, ?_, rfl⟩
    unfold XgModel.rollback
    have hguard : ¬ (sk.history.length < ts.length ∨
        (0 ≤ mr ∧ mr < (ts.length : Int))) := by
      push_neg
      constructor
      · omega
      · intro hge
        rcases hmr with h | h
        · omega
        · omega
    rw [if_neg hguard]
    have hne : ¬ ts.length = 0 := by omega
    rw [if_neg hne]
    have hgetD : sk.history.getD (ts.length - 1) ([], false) =
        (g.initConfigs, false) := by
      rw [← XgModel.getD_zero_drop, hdrop]
      rfl
    have hdropn : sk.history.drop ts.length = [] := by
      have h1 : ts.length = (ts.length - 1) + 1 := by omega
      rw [h1, ← List.drop_drop, hdrop]
      rfl
    rw [hgetD, hdropn]
    rfl

/-- Witness for C2 at the concrete grammar `gAB`: accepting the tokens
`[0, 1, 2]` (the letters a, b, then the stop token) and rolling back all
three steps restores the freshly reset matcher's bitmask output. -/
theorem c2_witness :
    ((-1 : Int) = -1 ∨ (([0, 1, 2].length : Int) ≤ -1)) ∧
      (XgModel.acceptTokenRun gAB (-1) (XgModel.initState gAB) [0, 1, 2] =
        some { configs := [2],
               history := [([2], false), ([1], false), ([0], false)],
               terminated := true }) ∧
      ∃ s' : XgModel.MatcherState,
        XgModel.rollback (-1)
            { configs := [2],
              history := [([2], false), ([1], false), ([0], false)],
              terminated := true } [0, 1, 2].length = some s' ∧
          XgModel.fillNextTokenBitmask gAB s' =
            XgModel.fillNextTokenBitmask gAB (XgModel.initState gAB) :=
  ⟨Or.inl rfl, by decide,
    c2_rollback_exactness gAB (-1) [0, 1, 2]
      { configs := [2],
        history := [([2], false), ([1], false), ([0], false)],
        terminated := true } (Or.inl rfl) (by decide)⟩

namespace XgModel

theorem rollback_succ_some (mr : Int) (s : MatcherState) (n : Nat)
    (s' : MatcherState) (h : rollback mr s (n + 1) = some s') :
    s' = { configs := (s.history.getD n ([], false)).1,
           history := s.history.drop (n + 1),
           terminated := (s.history.getD n ([], false)).2 } := by
  unfold rollback at h
  by_cases hguard : s.history.length < n + 1 ∨
      (0 ≤ mr ∧ mr < ((n + 1 : Nat) : Int))
  · rw [if_pos hguard] at h
    cases h
  · rw [if_neg hguard] at h
    simp only [Nat.succ_ne_zero, if_false] at h
    exact (Option.some.inj h).symm

end XgModel

/-- C4: AcceptToken/AcceptString atomicity on failure — whenever
`AcceptToken` (or `AcceptString`) returns false, the matcher's observable
state after the call (configuration set, rollback history, and terminated
flag) equals its state before the call; no partial per-character advancement
is observable. -/
theorem c4_accept_atomic_on_failure (g : XgModel.CompiledGrammar) (mr : Int)
    (s : XgModel.MatcherState) :
    (∀ t : Nat, (XgModel.acceptToken g mr s t).1 = false →
      (XgModel.acceptToken g mr s t).2 = s) ∧
    (∀ bs : List Nat, (XgModel.acceptString g mr s bs).1 = false →
      (XgModel.acceptString g mr s bs).2 = s) := by
  constructor
  · intro t h
    unfold XgModel.acceptToken at *
    by_cases h1 : s.terminated
    · simp [h1]
    · simp only [h1, if_false] at *
      by_cases h2 : t ∈ g.stopTokens
      · simp only [h2, if_true] at *
        by_cases h3 : s.configs.any g.isAccepting
        · simp [h3] at h
        · simp [h3]
      · simp only [h2, if_false] at *
        by_cases h4 :
            (XgModel.stepString g s.configs (g.tokenBytes t)).isEmpty
        · simp [h4]
        · simp [h4] at h
  · intro bs h
    unfold XgModel.acceptString at *
    by_cases h1 : s.terminated
    · simp [h1]
    · simp only [h1, if_false] at *
      by_cases h4 : (XgModel.stepString g s.configs bs).isEmpty
      · simp [h4]
      · simp [h4] at h

/-- Witness for C4: from the initial state of `gAB`, both token 1 (the
letter b, which the grammar cannot start with) and the string `[1, 0]` are
rejected, each leaving the state exactly as it was. -/
theorem c4_witness :
    ((XgModel.acceptToken gAB (-1) (XgModel.initState gAB) 1).1 = false ∧
      (XgModel.acceptToken gAB (-1) (XgModel.initState gAB) 1).2 =
        XgModel.initState gAB) ∧
    ((XgModel.acceptString gAB (-1) (XgModel.initState gAB) [1, 0]).1 = false ∧
      (XgModel.acceptString gAB (-1) (XgModel.initState gAB) [1, 0]).2 =
        XgModel.initState gAB) :=
  ⟨⟨by decide,
    (c4_accept_atomic_on_failure gAB (-1) (XgModel.initState gAB)).1 1
      (by decide)⟩,
   ⟨by decide,
    (c4_accept_atomic_on_failure gAB (-1) (XgModel.initState gAB)).2 [1, 0]
      (by decide)⟩⟩

/-- C5: Termination flag semantics — whenever `IsTerminated()` is true,
`AcceptToken` with any token id not in the stop-token set returns false and
leaves the matcher state unchanged; and if `Rollback 1` undoes the
terminating step (the most recent history snapshot was recorded before
termination, i.e. carries `terminated = false`), `IsTerminated()` is false
afterwards. -/
theorem c5_termination_flag (g : XgModel.CompiledGrammar) (mr : Int)
    (s : XgModel.MatcherState) :
    (∀ t : Nat, s.terminated = true → t ∉ g.stopTokens →
      XgModel.acceptToken g mr s t = (false, s)) ∧
    (∀ (snap : List Nat × Bool) (s' : XgModel.MatcherState),
      s.history.head? = some snap → snap.2 = false →
      XgModel.rollback mr s 1 = some s' → s'.terminated = false) := by
  constructor
  · intro t hterm _
    unfold XgModel.acceptToken
    simp [hterm]
  · intro snap s' hhead hsnap hroll
    have h2 := XgModel.rollback_succ_some mr s 0 s' hroll
    cases hh : s.history with
    | nil =>
      rw [hh] at hhead
      cases hhead
    | cons a l =>
      rw [hh] at hhead h2
      simp only [List.head?_cons, Option.some_inj] at hhead
      subst hhead
      rw [h2]
      simpa [List.getD_cons_zero] using hsnap

/-- The terminated state of `gAB` reached by accepting a, b, then the stop
token. -/
def sTermAB : XgModel.MatcherState :=
  { configs := [2], history := [([2], false), ([1], false), ([0], false)],
    terminated := true }

/-- Witness for C5 at `sTermAB`: token 0 is not a stop token and is refused
without state change, and rolling back the terminating step clears the
terminated flag. -/
theorem c5_witness :
    (sTermAB.terminated = true ∧ 0 ∉ gAB.stopTokens ∧
      XgModel.rollback (-1) sTermAB 1 =
        some { configs := [2], history := [([1], false), ([0], false)],
               terminated := false }) ∧
    (XgModel.acceptToken gAB (-1) sTermAB 0 = (false, sTermAB) ∧
      ({ configs := [2], history := [([1], false), ([0], false)],
         terminated := false } : XgModel.MatcherState).terminated = false) :=
  ⟨⟨rfl, by decide, by decide⟩,
   ⟨(c5_termination_flag gAB (-1) sTermAB).1 0 rfl (by decide),
    (c5_termination_flag gAB (-1) sTermAB).2 ([2], false) _ rfl rfl
      (by decide)⟩⟩

/-- C7: Rollback raises-iff and no clamping — `Rollback n` reports an error
(returning no new state, hence never silently clamping `n`) exactly when `n`
exceeds the recorded history depth or exceeds the configured
`max_rollback_tokens` bound (a non-negative bound smaller than `n`); in every
other case with `n ≥ 1` it succeeds and restores the configuration-set and
terminated-flag snapshot from `n` steps back, dropping the undone history. -/
theorem c7_rollback_raises_iff (mr : Int) (s : XgModel.MatcherState)
    (n : Nat) :
    (XgModel.rollback mr s n = none ↔
      s.history.length < n ∨ (0 ≤ mr ∧ mr < (n : Int))) ∧
    (1 ≤ n → ¬(s.history.length < n ∨ (0 ≤ mr ∧ mr < (n : Int))) →
      XgModel.rollback mr s n =
        some { configs := (s.history.getD (n - 1) ([], false)).1,
               history := s.history.drop n,
               terminated := (s.history.getD (n - 1) ([], false)).2 }) := by
  constructor
  · constructor
    · intro h
      by_contra hc
      unfold XgModel.rollback at h
      rw [if_neg hc] at h
      by_cases hn : n = 0
      · simp [hn] at h
      · rw [if_neg hn] at h
        simp at h
    · intro h
      unfold XgModel.rollback
      rw [if_pos h]
  · intro hn hok
    unfold XgModel.rollback
    rw [if_neg hok, if_neg (by omega : ¬ n = 0)]

/-- Witness for C7 at `sTermAB`: rolling back 2 of the 3 recorded steps
succeeds and restores the snapshot from 2 steps back, while rolling back 4
steps (exceeding the depth 3) reports an error. -/
theorem c7_witness :
    ((1 ≤ 2 ∧ ¬(sTermAB.history.length < 2 ∨
        (0 ≤ (-1 : Int) ∧ (-1 : Int) < (2 : Int)))) ∧
      XgModel.rollback (-1) sTermAB 2 =
        some { configs := (sTermAB.history.getD 1 ([], false)).1,
               history := sTermAB.history.drop 2,
               terminated := (sTermAB.history.getD 1 ([], false)).2 }) ∧
    (XgModel.rollback (-1) sTermAB 4 = none ↔
      sTermAB.history.length < 4 ∨ (0 ≤ (-1 : Int) ∧ (-1 : Int) < (4 : Int))) :=
  ⟨⟨⟨by decide, by decide⟩,
    (c7_rollback_raises_iff (-1) sTermAB 2).2 (by decide) (by decide)⟩,
   (c7_rollback_raises_iff (-1) sTermAB 4).1⟩

namespace XgModel

/-- The operations a host can perform on one `GrammarMatcher`, per the
source header's public surface (`matcher.h`). -/
inductive MatcherOp where
  | acceptTok (t : Nat)
  | acceptStr (bs : List Nat)
  | fillMask
  | roll (n : Nat)
  | doReset
deriving DecidableEq, Repr

/-- The observable result of one matcher operation. -/
inductive OpResult where
  | accepted (b : Bool)
  | mask (needApply : Bool) (words : List Nat)
  | rolled
  | rollbackError
  | didReset
deriving DecidableEq, Repr

/-- Modelled from the spec (§4.2): the state-transition semantics of one
matcher operation — `AcceptToken`/`AcceptString` mutate on success,
`FillNextTokenBitmask` only reads the state, `Rollback` either restores a
snapshot or reports an error leaving the state unchanged, and `Reset`
returns to the initial state. -/
def runOp (g : CompiledGrammar) (mr : Int) (s : MatcherState) :
    MatcherOp → MatcherState × OpResult
  | .acceptTok t =>
    ((acceptToken g mr s t).2, .accepted (acceptToken g mr s t).1)
  | .acceptStr bs =>
    ((acceptString g mr s bs).2, .accepted (acceptString g mr s bs).1)
  | .fillMask =>
    (s, .mask (fillNextTokenBitmask g s).1 (fillNextTokenBitmask g s).2)
  | .roll n =>
    match rollback mr s n with
    | some s2 => (s2, .rolled)
    | none => (s, .rollbackError)
  | .doReset => (initState g, .didReset)

/-- Run a sequence of matcher operations, recording each operation with its
observable result. -/
def runOps (g : CompiledGrammar) (mr : Int) :
    MatcherState → List MatcherOp → MatcherState × List (MatcherOp × OpResult)
  | s, [] => (s, [])
  | s, op :: ops =>
    let r := runOp g mr s op
    let rest := runOps g mr r.1 ops
    (rest.1, (op, r.2) :: rest.2)

theorem runOps_filter_fillMask (g : CompiledGrammar) (mr : Int) :
    ∀ (ops : List MatcherOp) (s : MatcherState),
      (runOps g mr s
        (ops.filter (fun op => decide (op ≠ MatcherOp.fillMask)))).1 =
        (runOps g mr s ops).1 ∧
      (runOps g mr s
        (ops.filter (fun op => decide (op ≠ MatcherOp.fillMask)))).2 =
        (runOps g mr s ops).2.filter
          (fun p => decide (p.1 ≠ MatcherOp.fillMask)) := by
  intro ops
  induction ops with
  | nil => intro s; exact ⟨rfl, rfl⟩
  | cons op ops ih =>
    intro s
    by_cases hop : op = MatcherOp.fillMask
    · subst hop
      have hfilter : (MatcherOp.fillMask :: ops).filter
          (fun op => decide (op ≠ MatcherOp.fillMask)) =
          ops.filter (fun op => decide (op ≠ MatcherOp.fillMask)) := by
        simp [List.filter_cons]
      have hstep : runOp g mr s MatcherOp.fillMask = (s, .mask
          (fillNextTokenBitmask g s).1 (fillNextTokenBitmask g s).2) := rfl
      constructor
      · rw [hfilter]
        have := (ih s).1
        rw [this]
        simp [runOps, hstep]
      · rw [hfilter]
        have := (ih s).2
        rw [this]
        simp [runOps, hstep, List.filter_cons]
    · have hfilter : (op :: ops).filter
          (fun op => decide (op ≠ MatcherOp.fillMask)) =
          op :: ops.filter (fun op => decide (op ≠ MatcherOp.fillMask)) := by
        simp [List.filter_cons, hop]
      constructor
      · rw [hfilter]
        simp only [runOps]
        exact (ih (runOp g mr s op).1).1
      · rw [hfilter]
        simp only [runOps]
        rw [(ih (runOp g mr s op).1).2]
        simp [List.filter_cons, hop]

end XgModel

/-- C6: FillNextTokenBitmask is non-mutating — running a `fillMask`
operation leaves the matcher state unchanged, and therefore deleting every
`fillMask` call from any operation sequence (equivalently, inserting any
number of `fillMask` calls anywhere) changes neither the final matcher state
nor the result recorded for any of the other operations. -/
theorem c6_fill_non_mutating (g : XgModel.CompiledGrammar) (mr : Int)
    (s : XgModel.MatcherState) (ops : List XgModel.MatcherOp) :
    (XgModel.runOp g mr s XgModel.MatcherOp.fillMask).1 = s ∧
    (XgModel.runOps g mr s
      (ops.filter (fun op => decide (op ≠ XgModel.MatcherOp.fillMask)))).1 =
      (XgModel.runOps g mr s ops).1 ∧
    (XgModel.runOps g mr s
      (ops.filter (fun op => decide (op ≠ XgModel.MatcherOp.fillMask)))).2 =
      (XgModel.runOps g mr s ops).2.filter
        (fun p => decide (p.1 ≠ XgModel.MatcherOp.fillMask)) :=
  ⟨rfl, (XgModel.runOps_filter_fillMask g mr ops s).1,
    (XgModel.runOps_filter_fillMask g mr ops s).2⟩

namespace XgModel

/-- One entry of a batch: a matcher (its compiled grammar, configured
rollback bound, and live state). Logically independent of every other
entry per the spec (§4.3, §5). -/
structure BatchEntry where
  g : CompiledGrammar
  mr : Int
  st : MatcherState

/-- Modelled from the spec (§4.3 index mapping): entry `i` of the matcher
collection writes to bitmask slice `indices[i]` when explicit indices are
given, otherwise positionally to slice `i`. -/
def destSlice (indices : Option (List Nat)) (i : Nat) : Nat :=
  match indices with
  | some idx => idx.getD i i
  | none => i

/-- Modelled from the spec (§4.3 `BatchFillNextTokenBitmask`): each entry
writes the bitmask its own `FillNextTokenBitmask` produces into its
destination slice of the tensor. The spec stipulates that worker parallelism
(sized by `maxThreads`, an implementation detail whose scheduling is not
shallowly embeddable) introduces no data dependency between entries — only
I/O-level interleaving — so the observable semantics is this per-entry
update, which is independent of `maxThreads`. -/
def batchFillNextTokenBitmask (maxThreads : Int) (entries : List BatchEntry)
    (tensor : List (List Nat)) (indices : Option (List Nat)) :
    List (List Nat) :=
  entries.enum.foldl
    (fun acc p =>
      acc.set (destSlice indices p.1) (fillNextTokenBitmask p.2.g p.2.st).2)
    tensor

/-- Modelled from the spec (§4.3 `BatchAcceptToken`): entry `i` records the
boolean result of its own `AcceptToken` on `tokenIds[i]` and its own updated
matcher state; no entry reads or writes any other entry. -/
def batchAcceptToken (entries : List BatchEntry) (tokenIds : List Nat) :
    List Bool × List BatchEntry :=
  (List.zipWith (fun e t => (acceptToken e.g e.mr e.st t).1) entries tokenIds,
   List.zipWith (fun e t => { e with st := (acceptToken e.g e.mr e.st t).2 })
     entries tokenIds)

/-- Modelled from the spec (§4.3 `BatchAcceptString`): entry `i` records the
boolean result of its own `AcceptString` on `strs[i]` and its own updated
matcher state. -/
def batchAcceptString (entries : List BatchEntry) (strs : List (List Nat)) :
    List Bool × List BatchEntry :=
  (List.zipWith (fun e bs => (acceptString e.g e.mr e.st bs).1) entries strs,
   List.zipWith (fun e bs => { e with st := (acceptString e.g e.mr e.st bs).2 })
     entries strs)

theorem foldl_set_get?_not_mem {β : Type} :
    ∀ (pairs : List (Nat × β)) (init : List β) (d : Nat),
      (∀ p ∈ pairs, p.1 ≠ d) →
      (pairs.foldl (fun acc p => acc.set p.1 p.2) init).get? d =
        init.get? d := by
  intro pairs
  induction pairs with
  | nil => intro init d _; rfl
  | cons p rest ih =>
    intro init d hd
    simp only [List.foldl_cons]
    rw [ih (init.set p.1 p.2) d
      (fun q hq => hd q (List.mem_cons_of_mem p hq))]
    exact List.get?_set_ne p.2 init (hd p (List.mem_cons_self p rest))

theorem foldl_set_get?_mem {β : Type} :
    ∀ (pairs : List (Nat × β)) (init : List β) (i : Nat) (v : β),
      (i, v) ∈ pairs → (pairs.map Prod.fst).Nodup → i < init.length →
      (pairs.foldl (fun acc p => acc.set p.1 p.2) init).get? i = some v := by
  intro pairs
  induction pairs with
  | nil => intro init i v hmem; cases hmem
  | cons p rest ih =>
    intro init i v hmem hnodup hlen
    simp only [List.map_cons, List.nodup_cons] at hnodup
    simp only [List.foldl_cons]
    rcases List.mem_cons.mp hmem with heq | hmem2
    · have hp1 : p.1 = i := by rw [← heq]
      have hp2 : p.2 = v := by rw [← heq]
      rw [foldl_set_get?_not_mem rest (init.set p.1 p.2) i ?hrest]
      case hrest =>
        intro q hq hqi
        exact hnodup.1 (hp1 ▸ hqi ▸ List.mem_map_of_mem Prod.fst hq)
      rw [hp1, hp2]
      exact List.get?_set_eq_of_lt v hlen
    · have hi : i ∈ rest.map Prod.fst := by
        have := List.mem_map_of_mem Prod.fst hmem2
        simpa using this
      have hne : p.1 ≠ i := fun h => hnodup.1 (h ▸ hi)
      have := ih (init.set p.1 p.2) i v hmem2 hnodup.2
        (by rw [List.length_set]; exact hlen)
      exact this

theorem get?_zipWith {α β γ : Type} (f : α → β → γ) :
    ∀ (l1 : List α) (l2 : List β) (i : Nat) (a : α) (b : β),
      l1.get? i = some a → l2.get? i = some b →
      (List.zipWith f l1 l2).get? i = some (f a b) := by
  intro l1
  induction l1 with
  | nil => intro l2 i a b h _; simp at h
  | cons x l1 ih =>
    intro l2 i a b h1 h2
    cases l2 with
    | nil => simp at h2
    | cons y l2 =>
      cases i with
      | zero =>
        simp only [List.get?_cons_zero, Option.some_inj] at h1 h2
        subst h1
        subst h2
        rfl
      | succ i =>
        simp only [List.get?_cons_succ] at h1 h2 ⊢
        exact ih l2 i a b h1 h2

end XgModel

/-- C3: Batch equivalence and entry independence — for every collection of
independent matchers, thread budget, bitmask tensor and optional index
mapping (with pairwise-distinct, in-range destination slices),
`BatchFillNextTokenBitmask` writes into each matcher's destination slice
exactly the bitmask its own `FillNextTokenBitmask` would produce in
isolation, leaves every non-destination row untouched, and its output does
not depend on the thread budget; and the per-entry results of
`BatchAcceptToken` and `BatchAcceptString` each equal the corresponding
isolated call on that entry alone, so a failure or false result on one entry
cannot change the outcome recorded for any other entry. -/
theorem c3_batch_equivalence (mt mt' : Int)
    (entries : List XgModel.BatchEntry) (tensor : List (List Nat))
    (indices : Option (List Nat)) (tokenIds : List Nat)
    (strs : List (List Nat))
    (hnodup : ((List.range entries.length).map
      (XgModel.destSlice indices)).Nodup)
    (hrange : ∀ i, i < entries.length →
      XgModel.destSlice indices i < tensor.length) :
    (∀ (i : Nat) (e : XgModel.BatchEntry), entries.get? i = some e →
      (XgModel.batchFillNextTokenBitmask mt entries tensor indices).get?
          (XgModel.destSlice indices i) =
        some (XgModel.fillNextTokenBitmask e.g e.st).2) ∧
    (∀ r : Nat,
      (∀ i, i < entries.length → XgModel.destSlice indices i ≠ r) →
      (XgModel.batchFillNextTokenBitmask mt entries tensor indices).get? r =
        tensor.get? r) ∧
    XgModel.batchFillNextTokenBitmask mt entries tensor indices =
      XgModel.batchFillNextTokenBitmask mt' entries tensor indices ∧
    (∀ (i : Nat) (e : XgModel.BatchEntry) (t : Nat),
      entries.get? i = some e → tokenIds.get? i = some t →
      (XgModel.batchAcceptToken entries tokenIds).1.get? i =
        some (XgModel.acceptToken e.g e.mr e.st t).1) ∧
    (∀ (i : Nat) (e : XgModel.BatchEntry) (bs : List Nat),
      entries.get? i = some e → strs.get? i = some bs →
      (XgModel.batchAcceptString entries strs).1.get? i =
        some (XgModel.acceptString e.g e.mr e.st bs).1) := by
  have henum : entries.enum.map Prod.fst = List.range entries.length := by
    rw [List.enum_eq_enumFrom, List.enumFrom_map_fst, ← List.range_eq_range']
  have hfold : XgModel.batchFillNextTokenBitmask mt entries tensor indices =
      (entries.enum.map (fun p => (XgModel.destSlice indices p.1,
        (XgModel.fillNextTokenBitmask p.2.g p.2.st).2))).foldl
        (fun acc q => acc.set q.1 q.2) tensor := by
    rw [XgModel.batchFillNextTokenBitmask, List.foldl_map]
  have hkeys : (entries.enum.map (fun p => (XgModel.destSlice indices p.1,
      (XgModel.fillNextTokenBitmask p.2.g p.2.st).2))).map Prod.fst =
      (List.range entries.length).map (XgModel.destSlice indices) := by
    rw [List.map_map]
    have h2 : entries.enum.map
        (Prod.fst ∘ fun p => (XgModel.destSlice indices p.1,
          (XgModel.fillNextTokenBitmask p.2.g p.2.st).2)) =
        (entries.enum.map Prod.fst).map (XgModel.destSlice indices) := by
      rw [List.map_map]
      rfl
    rw [h2, henum]
  refine ⟨?_, ?_, rfl, ?_, ?_⟩
  · intro i e hi
    have hlen_i : i < entries.length := by
      rcases List.get?_eq_some.mp hi with ⟨h, _⟩
      exact h
    have hmem_enum : (i, e) ∈ entries.enum := by
      rw [List.mk_mem_enum_iff_getElem?, ← List.get?_eq_getElem?]
      exact hi
    have hmem : (XgModel.destSlice indices i,
        (XgModel.fillNextTokenBitmask e.g e.st).2) ∈
        entries.enum.map (fun p => (XgModel.destSlice indices p.1,
          (XgModel.fillNextTokenBitmask p.2.g p.2.st).2)) :=
      List.mem_map_of_mem _ hmem_enum
    rw [hfold]
    exact XgModel.foldl_set_get?_mem _ tensor (XgModel.destSlice indices i)
      ((XgModel.fillNextTokenBitmask e.g e.st).2) hmem
      (by rw [hkeys]; exact hnodup) (hrange i hlen_i)
  · intro r hr
    rw [hfold]
    apply XgModel.foldl_set_get?_not_mem
    intro q hq
    rcases List.mem_map.mp hq with ⟨p, hp, hpq⟩
    have hplen : p.1 < entries.length := by
      have h3 := List.mem_map_of_mem Prod.fst hp
      rw [henum] at h3
      exact List.mem_range.mp h3
    rw [← hpq]
    exact hr p.1 hplen
  · intro i e t hi ht
    exact XgModel.get?_zipWith _ entries tokenIds i e t hi ht
  · intro i e bs hi hbs
    exact XgModel.get?_zipWith _ entries strs i e bs hi hbs

/-- First batch-witness entry: a fresh matcher over `gAB`. -/
def batchEntryA : XgModel.BatchEntry :=
  { g := gAB, mr := -1, st := XgModel.initState gAB }

/-- Second batch-witness entry: a matcher over `gAB` that has already
consumed the letter a. -/
def batchEntryB : XgModel.BatchEntry :=
  { g := gAB, mr := -1,
    st := { configs := [1], history := [([0], false)], terminated := false } }

/-- Witness for C3 on a two-entry batch over `gAB` with positional index
mapping: entry 0's destination slice carries exactly entry 0's isolated
bitmask, and entry 1's recorded `BatchAcceptToken` result equals its
isolated `AcceptToken` result. -/
theorem c3_witness :
    (((List.range ([batchEntryA, batchEntryB].length)).map
        (XgModel.destSlice none)).Nodup ∧
      (∀ i, i < [batchEntryA, batchEntryB].length →
        XgModel.destSlice none i < ([[0], [0]] : List (List Nat)).length)) ∧
    ((XgModel.batchFillNextTokenBitmask 4 [batchEntryA, batchEntryB]
        [[0], [0]] none).get? (XgModel.destSlice none 0) =
      some (XgModel.fillNextTokenBitmask batchEntryA.g batchEntryA.st).2 ∧
    (XgModel.batchAcceptToken [batchEntryA, batchEntryB] [0, 1]).1.get? 1 =
      some (XgModel.acceptToken batchEntryB.g batchEntryB.mr
        batchEntryB.st 1).1) :=
  ⟨⟨by decide, by decide⟩,
   ⟨(c3_batch_equivalence 4 7 [batchEntryA, batchEntryB] [[0], [0]] none
       [0, 1] [] (by decide) (by decide)).1 0 batchEntryA rfl,
    (c3_batch_equivalence 4 7 [batchEntryA, batchEntryB] [[0], [0]] none
       [0, 1] [] (by decide) (by decide)).2.2.2.1 1 batchEntryB 1 rfl rfl⟩⟩

namespace XgBridge

/-- Embedded from `cpp/structural_tag.h`: the structural-tag format tree.
One constructor per alternative of the C++ `Format` variant, in source
order. `TagFormat` values nested inside `triggeredTagsFormat` and
`tagsWithSeparatorFormat` (C++ `std::vector<TagFormat>`) are represented as
`(begin, content, end)` triples; the analyzer-owned private fields
(`detected_end_str_`, `is_unlimited_`) are carried as plain fields. -/
inductive Format where
  | constStringFormat (value : String)
  | jsonSchemaFormat (json_schema : String)
  | qwenXmlParameterFormat (xml_schema : String)
  | anyTextFormat (detected_end_str : Option String)
  | grammarFormat (grammar : String)
  | regexFormat (pattern : String)
  | sequenceFormat (elements : List Format) (is_unlimited : Bool)
  | orFormat (elements : List Format) (is_unlimited : Bool)
  | tagFormat (begin : String) (content : Format) (endStr : String)
  | triggeredTagsFormat (triggers : List String)
      (tags : List (String × Format × String))
      (at_least_one : Bool) (stop_after_first : Bool)
      (detected_end_str : Option String)
  | tagsWithSeparatorFormat (tags : List (String × Format × String))
      (separator : String) (at_least_one : Bool) (stop_after_first : Bool)
      (detected_end_str : Option String)

/-- Embedded from `cpp/structural_tag.h`: the `static constexpr const char*
type` discriminator constant of each format struct. -/
def Format.typeDiscriminator : Format → String
  | .constStringFormat _ => "const_string"
  | .jsonSchemaFormat _ => "json_schema"
  | .qwenXmlParameterFormat _ => "qwen_xml"
  | .anyTextFormat _ => "any_text"
  | .grammarFormat _ => "grammar"
  | .regexFormat _ => "regex"
  | .sequenceFormat _ _ => "sequence"
  | .orFormat _ _ => "or"
  | .tagFormat _ _ _ => "tag"
  | .triggeredTagsFormat _ _ _ _ _ => "triggered_tags"
  | .tagsWithSeparatorFormat _ _ _ _ _ => "tags_with_separator"

/-- The eleven `type` discriminator strings of the structural-tag input
format, in the order of the C++ `Format` variant. -/
def structuralTagTypeList : List String :=
  ["const_string", "json_schema", "qwen_xml", "any_text", "grammar",
   "regex", "sequence", "or", "tag", "triggered_tags",
   "tags_with_separator"]

/-- One value of each `Format` variant, in variant order. -/
def formatExamples : List Format :=
  [.constStringFormat "", .jsonSchemaFormat "", .qwenXmlParameterFormat "",
   .anyTextFormat none, .grammarFormat "", .regexFormat "",
   .sequenceFormat [] false, .orFormat [] false,
   .tagFormat "" (.anyTextFormat none) "",
   .triggeredTagsFormat [] [] false false none,
   .tagsWithSeparatorFormat [] "" false false none]

end XgBridge

/-- C9: Structural-tag input closed variant set — the format tree consists
of exactly the eleven node kinds tagged by the `type` discriminators
`const_string`, `json_schema`, `qwen_xml`, `any_text`, `grammar`, `regex`,
`sequence`, `or`, `tag`, `triggered_tags`, `tags_with_separator`: every
variant's discriminator lies in that list, each of the eleven strings is the
discriminator of exactly one variant (the discriminators are pairwise
distinct and each is attained), and no variant outside the list exists
(`Format` is a closed inductive whose every value falls into one of these
cases). -/
theorem c9_structural_tag_closed_variants :
    (∀ f : XgBridge.Format,
      f.typeDiscriminator ∈ XgBridge.structuralTagTypeList) ∧
    XgBridge.formatExamples.map XgBridge.Format.typeDiscriminator =
      XgBridge.structuralTagTypeList ∧
    XgBridge.structuralTagTypeList.Nodup ∧
    XgBridge.structuralTagTypeList.length = 11 := by
  refine ⟨?_, rfl, by decide, rfl⟩
  intro f
  cases f <;>
    simp [XgBridge.Format.typeDiscriminator, XgBridge.structuralTagTypeList]

namespace XgBridge

/-- Embedded from `include/xgrammar/exception.h`: the `SerializationError`
variant — `DeserializeVersionError`, `InvalidJSONError`,
`DeserializeFormatError` — returned by the `DeserializeJSON` entry points of
Grammar, TokenizerInfo and CompiledGrammar. -/
inductive SerializationError where
  | deserializeVersionError (message : String)
  | invalidJSONError (message : String)
  | deserializeFormatError (message : String)
deriving DecidableEq, Repr

/-- Embedded from `include/xgrammar/exception.h`: each exception type
prefixes its constructor message, so `what()` carries a distinguishing
prefix per error kind. -/
def SerializationError.what : SerializationError → String
  | .deserializeVersionError m => "Deserialize version error: " ++ m
  | .invalidJSONError m => "Invalid JSON error: " ++ m
  | .deserializeFormatError m => "Deserialize format error: " ++ m

/-- The constructor tag of a serialization error: 0 for a version error, 1
for invalid JSON, 2 for a format error. -/
def SerializationError.kind : SerializationError → Nat
  | .deserializeVersionError _ => 0
  | .invalidJSONError _ => 1
  | .deserializeFormatError _ => 2

/-- Embedded from `src/src/cxx_utils/compiler.hpp`
`compiled_grammar_deserialize_json_or_error`: on a `SerializationError`
result of `CompiledGrammar::DeserializeJSON` (whose own implementation is
outside the source tree, so its outcome is taken as input), visits the
variant and writes `e.what()` into `*error_out`, returning null; on success
returns the value, leaving `*error_out` untouched. -/
def compiled_grammar_deserialize_json_or_error {α : Type}
    (result : Except SerializationError α) (error_out : Option String) :
    Option α × Option String :=
  match result with
  | .error e => (none, error_out.map (fun _ => e.what))
  | .ok v => (some v, error_out)

/-- Embedded from `src/src/cxx_utils/grammar.hpp`
`grammar_deserialize_json_or_error`: identical error protocol for
`Grammar::DeserializeJSON`. -/
def grammar_deserialize_json_or_error {α : Type}
    (result : Except SerializationError α) (error_out : Option String) :
    Option α × Option String :=
  match result with
  | .error e => (none, error_out.map (fun _ => e.what))
  | .ok v => (some v, error_out)

/-- Embedded from `src/src/cxx_utils/tokenizer_info.hpp`
`tokenizer_info_deserialize_json_or_null`: any `SerializationError` from
`TokenizerInfo::DeserializeJSON` is discarded and null is returned, with no
error message at all. -/
def tokenizer_info_deserialize_json_or_null {α : Type}
    (result : Except SerializationError α) : Option α :=
  match result with
  | .error _ => none
  | .ok v => some v

/-- Embedded from `src/src/cxx_utils.hpp` `compiled_deserialize_json_safe`:
any `SerializationError` from `CompiledGrammar::DeserializeJSON` is reported
as the constant string "SerializationError", discarding which kind of error
occurred. -/
def compiled_deserialize_json_safe {α : Type}
    (result : Except SerializationError α) (err : Option String) :
    Option α × Option String :=
  match result with
  | .ok v => (some v, err)
  | .error _ => (none, err.map (fun _ => "SerializationError"))

theorem string_append_ne_of_data_differ (p q : String) (k : Nat)
    (hp : k < p.data.length) (hq : k < q.data.length)
    (hne : p.data[k]? ≠ q.data[k]?) :
    ∀ m1 m2 : String, p ++ m1 ≠ q ++ m2 := by
  intro m1 m2 h
  apply hne
  have hd := congrArg String.data h
  rw [String.data_append, String.data_append] at hd
  calc p.data[k]? = (p.data ++ m1.data)[k]? :=
        (List.getElem?_append_left hp).symm
    _ = (q.data ++ m2.data)[k]? := by rw [hd]
    _ = q.data[k]? := List.getElem?_append_left hq

theorem what_distinguishes_kind :
    ∀ e1 e2 : SerializationError,
      e1.kind ≠ e2.kind → e1.what ≠ e2.what := by
  intro e1 e2 hk
  cases e1 with
  | deserializeVersionError m1 =>
    cases e2 with
    | deserializeVersionError m2 => exact absurd rfl hk
    | invalidJSONError m2 =>
      exact string_append_ne_of_data_differ _ _ 0 (by decide) (by decide)
        (by decide) m1 m2
    | deserializeFormatError m2 =>
      exact string_append_ne_of_data_differ _ _ 12 (by decide) (by decide)
        (by decide) m1 m2
  | invalidJSONError m1 =>
    cases e2 with
    | deserializeVersionError m2 =>
      exact string_append_ne_of_data_differ _ _ 0 (by decide) (by decide)
        (by decide) m1 m2
    | invalidJSONError m2 => exact absurd rfl hk
    | deserializeFormatError m2 =>
      exact string_append_ne_of_data_differ _ _ 0 (by decide) (by decide)
        (by decide) m1 m2
  | deserializeFormatError m1 =>
    cases e2 with
    | deserializeVersionError m2 =>
      exact string_append_ne_of_data_differ _ _ 12 (by decide) (by decide)
        (by decide) m1 m2
    | invalidJSONError m2 =>
      exact string_append_ne_of_data_differ _ _ 0 (by decide) (by decide)
        (by decide) m1 m2
    | deserializeFormatError m2 => exact absurd rfl hk

end XgBridge

/-- C8 counterexample: the claim that the version/format distinction is
preserved at the bridge surface fails on the code — at the
`compiled_deserialize_json_safe` surface a deserialize version error and a
deserialize format error produce the identical caller-visible output
`(null, "SerializationError")` even though their underlying `what()`
messages differ, and `tokenizer_info_deserialize_json_or_null` likewise
returns an indistinguishable bare null for both. -/
theorem c8_counterexample :
    XgBridge.compiled_deserialize_json_safe (α := Unit)
        (.error (.deserializeVersionError "expected v3, got v2"))
        (some "") =
      XgBridge.compiled_deserialize_json_safe (α := Unit)
        (.error (.deserializeFormatError "unexpected field")) (some "") ∧
    (XgBridge.SerializationError.deserializeVersionError
        "expected v3, got v2").what ≠
      (XgBridge.SerializationError.deserializeFormatError
        "unexpected field").what ∧
    XgBridge.tokenizer_info_deserialize_json_or_null (α := Unit)
        (.error (.deserializeVersionError "expected v3, got v2")) =
      XgBridge.tokenizer_info_deserialize_json_or_null (α := Unit)
        (.error (.deserializeFormatError "unexpected field")) :=
  ⟨rfl, by decide, rfl⟩

/-- C8 (amended): for Grammar, TokenizerInfo and CompiledGrammar,
`DeserializeJSON` either succeeds or fails with a `SerializationError` whose
`what()` message carries a distinguishing prefix per error kind (version
error vs invalid JSON vs format error), so distinct kinds are
caller-distinguishable; the `grammar_deserialize_json_or_error` and
`compiled_grammar_deserialize_json_or_error` bridge surfaces preserve this
distinction by reporting `what()` verbatim — but
`compiled_deserialize_json_safe` collapses every serialization error to the
constant string "SerializationError", and
`tokenizer_info_deserialize_json_or_null` reports no message at all, so the
distinction is not preserved at those two surfaces. -/
theorem c8_distinguished_errors_amended
    (e e' : XgBridge.SerializationError) (msg : String)
    (hk : e.kind ≠ e'.kind) :
    e.what ≠ e'.what ∧
    XgBridge.compiled_grammar_deserialize_json_or_error (α := Unit)
        (.error e) (some msg) = (none, some e.what) ∧
    XgBridge.grammar_deserialize_json_or_error (α := Unit)
        (.error e) (some msg) = (none, some e.what) ∧
    XgBridge.compiled_deserialize_json_safe (α := Unit)
        (.error e) (some msg) = (none, some "SerializationError") ∧
    XgBridge.compiled_deserialize_json_safe (α := Unit)
        (.error e') (some msg) = (none, some "SerializationError") ∧
    XgBridge.tokenizer_info_deserialize_json_or_null (α := Unit)
        (.error e) = none :=
  ⟨XgBridge.what_distinguishes_kind e e' hk, rfl, rfl, rfl, rfl, rfl⟩

/-- Witness for the amended C8 at a concrete version error and format
error: their kinds differ, the or_error surfaces report the distinct what()
messages, and the safe/or_null surfaces collapse the distinction. -/
theorem c8_witness :
    ((XgBridge.SerializationError.deserializeVersionError "v").kind ≠
      (XgBridge.SerializationError.deserializeFormatError "f").kind) ∧
    ((XgBridge.SerializationError.deserializeVersionError "v").what ≠
      (XgBridge.SerializationError.deserializeFormatError "f").what ∧
    XgBridge.compiled_grammar_deserialize_json_or_error (α := Unit)
        (.error (.deserializeVersionError "v")) (some "old") =
      (none, some (XgBridge.SerializationError.deserializeVersionError
        "v").what) ∧
    XgBridge.grammar_deserialize_json_or_error (α := Unit)
        (.error (.deserializeVersionError "v")) (some "old") =
      (none, some (XgBridge.SerializationError.deserializeVersionError
        "v").what) ∧
    XgBridge.compiled_deserialize_json_safe (α := Unit)
        (.error (.deserializeVersionError "v")) (some "old") =
      (none, some "SerializationError") ∧
    XgBridge.compiled_deserialize_json_safe (α := Unit)
        (.error (.deserializeFormatError "f")) (some "old") =
      (none, some "SerializationError") ∧
    XgBridge.tokenizer_info_deserialize_json_or_null (α := Unit)
        (.error (.deserializeVersionError "v")) = none) :=
  ⟨by decide,
   c8_distinguished_errors_amended
     (XgBridge.SerializationError.deserializeVersionError "v")
     (XgBridge.SerializationError.deserializeFormatError "f") "old"
     (by decide)⟩

namespace XgBridge

/-- The outcome of the underlying C++ construction or compilation call
wrapped by a cxx_utils factory: a value, a thrown `std::exception` carrying
a `what()` message, or a thrown non-standard exception. The wrapped callees
(xgrammar constructors and compile entry points) are outside the source
tree, so their outcome is taken as input to the wrapper embedding. -/
inductive CppResult (α : Type) where
  | ok (value : α)
  | stdExc (message : String)
  | otherExc

/-- Embedded from `src/src/cxx_utils/matcher.hpp` `make_grammar_matcher`:
clears `*error_out` (when non-null) on entry, then constructs; a thrown
`std::exception` yields null with `e.what()` in `*error_out`, any other
exception yields null with "unknown C++ exception", and no exception
escapes. -/
def make_grammar_matcher {α : Type} (construct : CppResult α)
    (error_out : Option String) : Option α × Option String :=
  match construct with
  | .ok v => (some v, error_out.map (fun _ => ""))
  | .stdExc msg => (none, error_out.map (fun _ => msg))
  | .otherExc => (none, error_out.map (fun _ => "unknown C++ exception"))

/-- Embedded from `src/src/cxx_utils/matcher.hpp`
`make_batch_grammar_matcher`: the same error protocol. -/
def make_batch_grammar_matcher {α : Type} (construct : CppResult α)
    (error_out : Option String) : Option α × Option String :=
  match construct with
  | .ok v => (some v, error_out.map (fun _ => ""))
  | .stdExc msg => (none, error_out.map (fun _ => msg))
  | .otherExc => (none, error_out.map (fun _ => "unknown C++ exception"))

/-- Embedded from `src/src/cxx_utils/grammar_compiler.hpp`
`make_grammar_compiler`: the same error protocol. -/
def make_grammar_compiler {α : Type} (construct : CppResult α)
    (error_out : Option String) : Option α × Option String :=
  match construct with
  | .ok v => (some v, error_out.map (fun _ => ""))
  | .stdExc msg => (none, error_out.map (fun _ => msg))
  | .otherExc => (none, error_out.map (fun _ => "unknown C++ exception"))

/-- Embedded from `src/src/cxx_utils.hpp` `make_compiler` (noexcept, no
error-out parameter): any exception is swallowed and null returned. -/
def make_compiler {α : Type} (construct : CppResult α) : Option α :=
  match construct with
  | .ok v => some v
  | .stdExc _ => none
  | .otherExc => none

/-- The observable part of an `xgrammar::Grammar` value as used by the
grammar factory wrappers: its `IsNull()` flag and its `ToString()`
rendering. -/
structure GrammarValue where
  isNull : Bool
  toStr : String

/-- Embedded from `src/src/cxx_utils/grammar.hpp` `grammar_from_json_schema`:
clears `*error_out` on entry; a thrown exception yields null with the
message (or "unknown C++ exception"); a null grammar value yields null with
its `ToString()` as message; otherwise the grammar is returned with
`*error_out` still cleared. -/
def grammar_from_json_schema (construct : CppResult GrammarValue)
    (error_out : Option String) : Option GrammarValue × Option String :=
  match construct with
  | .ok g =>
    if g.isNull then (none, error_out.map (fun _ => g.toStr))
    else (some g, error_out.map (fun _ => ""))
  | .stdExc msg => (none, error_out.map (fun _ => msg))
  | .otherExc => (none, error_out.map (fun _ => "unknown C++ exception"))

/-- Embedded from `src/src/cxx_utils/grammar.hpp` `grammar_from_ebnf`: the
same protocol as `grammar_from_json_schema`. -/
def grammar_from_ebnf (construct : CppResult GrammarValue)
    (error_out : Option String) : Option GrammarValue × Option String :=
  match construct with
  | .ok g =>
    if g.isNull then (none, error_out.map (fun _ => g.toStr))
    else (some g, error_out.map (fun _ => ""))
  | .stdExc msg => (none, error_out.map (fun _ => msg))
  | .otherExc => (none, error_out.map (fun _ => "unknown C++ exception"))

/-- Embedded from `src/src/cxx_utils/grammar.hpp` `grammar_from_regex`: the
same protocol as `grammar_from_json_schema`. -/
def grammar_from_regex (construct : CppResult GrammarValue)
    (error_out : Option String) : Option GrammarValue × Option String :=
  match construct with
  | .ok g =>
    if g.isNull then (none, error_out.map (fun _ => g.toStr))
    else (some g, error_out.map (fun _ => ""))
  | .stdExc msg => (none, error_out.map (fun _ => msg))
  | .otherExc => (none, error_out.map (fun _ => "unknown C++ exception"))

end XgBridge

/-- C10: Implicit bridge no-throw protocol — each cxx_utils factory and
compile wrapper is a total function of the underlying call's outcome (no
exception escapes): if the underlying construction throws, the wrapper
returns null and, when `error_out` is non-null, writes the exception's
message (or "unknown C++ exception" for a non-standard exception) into it
(`make_compiler`, which takes no `error_out`, simply returns null); and
whenever a wrapper returns a non-null pointer, `*error_out` has been cleared
to the empty string. -/
theorem c10_bridge_no_throw {α : Type} (u : XgBridge.CppResult α)
    (ug : XgBridge.CppResult XgBridge.GrammarValue)
    (eo : Option String) :
    (∀ msg : String, u = .stdExc msg →
      XgBridge.make_grammar_matcher u eo =
        (none, eo.map (fun _ => msg)) ∧
      XgBridge.make_batch_grammar_matcher u eo =
        (none, eo.map (fun _ => msg)) ∧
      XgBridge.make_grammar_compiler u eo =
        (none, eo.map (fun _ => msg)) ∧
      XgBridge.make_compiler u = none) ∧
    (u = .otherExc →
      XgBridge.make_grammar_matcher u eo =
        (none, eo.map (fun _ => "unknown C++ exception")) ∧
      XgBridge.make_batch_grammar_matcher u eo =
        (none, eo.map (fun _ => "unknown C++ exception")) ∧
      XgBridge.make_grammar_compiler u eo =
        (none, eo.map (fun _ => "unknown C++ exception")) ∧
      XgBridge.make_compiler u = none) ∧
    (∀ v : α, (XgBridge.make_grammar_matcher u eo).1 = some v →
      (XgBridge.make_grammar_matcher u eo).2 = eo.map (fun _ => "")) ∧
    (∀ v : α, (XgBridge.make_batch_grammar_matcher u eo).1 = some v →
      (XgBridge.make_batch_grammar_matcher u eo).2 = eo.map (fun _ => "")) ∧
    (∀ v : α, (XgBridge.make_grammar_compiler u eo).1 = some v →
      (XgBridge.make_grammar_compiler u eo).2 = eo.map (fun _ => "")) ∧
    (∀ msg : String, ug = .stdExc msg →
      XgBridge.grammar_from_json_schema ug eo =
        (none, eo.map (fun _ => msg)) ∧
      XgBridge.grammar_from_ebnf ug eo = (none, eo.map (fun _ => msg)) ∧
      XgBridge.grammar_from_regex ug eo = (none, eo.map (fun _ => msg))) ∧
    (ug = .otherExc →
      XgBridge.grammar_from_json_schema ug eo =
        (none, eo.map (fun _ => "unknown C++ exception")) ∧
      XgBridge.grammar_from_ebnf ug eo =
        (none, eo.map (fun _ => "unknown C++ exception")) ∧
      XgBridge.grammar_from_regex ug eo =
        (none, eo.map (fun _ => "unknown C++ exception"))) ∧
    (∀ gv : XgBridge.GrammarValue,
      (XgBridge.grammar_from_json_schema ug eo).1 = some gv →
      (XgBridge.grammar_from_json_schema ug eo).2 =
        eo.map (fun _ => "")) ∧
    (∀ gv : XgBridge.GrammarValue,
      (XgBridge.grammar_from_ebnf ug eo).1 = some gv →
      (XgBridge.grammar_from_ebnf ug eo).2 = eo.map (fun _ => "")) ∧
    (∀ gv : XgBridge.GrammarValue,
      (XgBridge.grammar_from_regex ug eo).1 = some gv →
      (XgBridge.grammar_from_regex ug eo).2 = eo.map (fun _ => "")) := by
  refine ⟨?_, ?_, ?_, ?_, ?_, ?_, ?_, ?_, ?_, ?_⟩
  · intro msg hu
    subst hu
    exact ⟨rfl, rfl, rfl, rfl⟩
  · intro hu
    subst hu
    exact ⟨rfl, rfl, rfl, rfl⟩
  · intro v hv
    cases u <;> simp [XgBridge.make_grammar_matcher] at hv ⊢
  · intro v hv
    cases u <;> simp [XgBridge.make_batch_grammar_matcher] at hv ⊢
  · intro v hv
    cases u <;> simp [XgBridge.make_grammar_compiler] at hv ⊢
  · intro msg hu
    subst hu
    exact ⟨rfl, rfl, rfl⟩
  · intro hu
    subst hu
    exact ⟨rfl, rfl, rfl⟩
  · intro gv hgv
    cases ug with
    | ok g =>
      by_cases hn : g.isNull <;>
        simp [XgBridge.grammar_from_json_schema, hn] at hgv ⊢
    | stdExc msg => simp [XgBridge.grammar_from_json_schema] at hgv
    | otherExc => simp [XgBridge.grammar_from_json_schema] at hgv
  · intro gv hgv
    cases ug with
    | ok g =>
      by_cases hn : g.isNull <;>
        simp [XgBridge.grammar_from_ebnf, hn] at hgv ⊢
    | stdExc msg => simp [XgBridge.grammar_from_ebnf] at hgv
    | otherExc => simp [XgBridge.grammar_from_ebnf] at hgv
  · intro gv hgv
    cases ug with
    | ok g =>
      by_cases hn : g.isNull <;>
        simp [XgBridge.grammar_from_regex, hn] at hgv ⊢
    | stdExc msg => simp [XgBridge.grammar_from_regex] at hgv
    | otherExc => simp [XgBridge.grammar_from_regex] at hgv

/-- Witness for C10: a throwing construction yields null plus the message,
and a successful non-null grammar leaves `*error_out` cleared to the empty
string. -/
theorem c10_witness :
    ((XgBridge.CppResult.stdExc "boom" : XgBridge.CppResult Unit) =
        .stdExc "boom" ∧
      (XgBridge.grammar_from_ebnf
          (.ok { isNull := false, toStr := "g" }) (some "old")).1 =
        some { isNull := false, toStr := "g" }) ∧
    (XgBridge.make_grammar_matcher
        (XgBridge.CppResult.stdExc "boom" : XgBridge.CppResult Unit)
        (some "old") = (none, (some "old").map (fun _ => "boom")) ∧
      (XgBridge.grammar_from_ebnf
          (.ok { isNull := false, toStr := "g" }) (some "old")).2 =
        (some "old").map (fun _ => "")) :=
  ⟨⟨rfl, rfl⟩,
   ⟨((c10_bridge_no_throw
        (XgBridge.CppResult.stdExc "boom" : XgBridge.CppResult Unit)
        (.ok { isNull := false, toStr := "g" }) (some "old")).1
      "boom" rfl).1,
    (c10_bridge_no_throw
        (XgBridge.CppResult.stdExc "boom" : XgBridge.CppResult Unit)
        (.ok { isNull := false, toStr := "g" }) (some "old")).2.2.2.2.2.2.2.2.1
      { isNull := false, toStr := "g" } rfl⟩⟩
